import Mathlib

/-!
Formal model of the Match Stats Aggregation & Puzzle Conversion Engine of
`complete_odi_processor.py` (class `CompleteODIProcessor`).

The translation is a shallow embedding: Python dictionaries that are used as
records become Lean structures; dictionaries used as string-keyed maps become
association lists (`List (String × _)`) with Python-dict update semantics
(`dictSet`: replace in place if the key is present, append otherwise);
optional / possibly-missing JSON fields become `Option`; code that can raise
an exception that is caught by a surrounding `try`/`except` becomes an
`Option`-valued computation, `none` marking the exception path.
-/

/-- A wicket event on a delivery.  `kind` models `wicket.get('kind')`:
`none` when the `kind` field is absent. -/
structure Wicket where
  kind : Option String
deriving Repr, DecidableEq

/-- The runs breakdown of a delivery, `delivery.get('runs', {})`.
`batter` models `runs.get('batter')` and `total` models `runs.get('total')`;
`none` when the field is absent. -/
structure Runs where
  batter : Option Nat := none
  total : Option Nat := none
deriving Repr, DecidableEq

/-- One delivery, with batter and bowler names, the runs breakdown and the
wicket events.  `wickets` models `delivery.get('wickets')` with a missing or
`None` field represented by the empty list (the source only iterates over it
and takes its length, both after a truthiness guard, so the empty list and a
missing field are indistinguishable). -/
structure Delivery where
  batter : String
  bowler : String
  runs : Runs := {}
  wickets : List Wicket := []
deriving Repr, DecidableEq

/-- One over: `over.get('deliveries')`, a missing field modelled as `[]`
(the source only iterates after a truthiness guard). -/
structure Over where
  deliveries : List Delivery := []
deriving Repr, DecidableEq

/-- One innings: the batting `team` (required field `inning['team']`) and
the overs (`inning.get('overs')`, missing modelled as `[]`). -/
structure Inning where
  team : String
  overs : List Over := []
deriving Repr, DecidableEq

/-- The `info` block of a cricsheet match record.  Fields read with `.get`
in the source are `Option`s; `players` is the roster mapping from team name
to the ordered list of player full names. -/
structure Info where
  players : List (String × List String) := []
  player_of_match : Option (List String) := none
  teams : Option (List String) := none
  dates : List String := []
  venue : Option String := none
  outcome_winner : Option String := none
deriving Repr, DecidableEq

/-- A cricsheet match record: the `info` block and the innings list
(`cricsheet_data.get('innings')`). -/
structure MatchRecord where
  info : Info := {}
  innings : Option (List Inning) := none
deriving Repr, DecidableEq

/-- Boundary counters of a player's statistics. -/
structure Boundaries where
  fours : Nat := 0
  sixes : Nat := 0
deriving Repr, DecidableEq

/-- Per-match, per-player statistics, as initialized and mutated by
`calculate_player_stats`. -/
structure PlayerStat where
  full_name : String
  team : String
  runs_in_match : Nat := 0
  wickets_in_match : Nat := 0
  balls_faced : Nat := 0
  balls_bowled : Nat := 0
  boundaries : Boundaries := {}
  played_in_match : Bool := false
deriving Repr, DecidableEq

/-- Per-team totals produced from one innings by `calculate_team_scores`. -/
structure TeamScore where
  runs : Nat := 0
  wickets : Nat := 0
deriving Repr, DecidableEq

/-- The `scorecard` block of an assembled puzzle. -/
structure Scorecard where
  teams : List String
  venue : String
  date : String
  season : String
  winner : String
  player_of_match : String
  team_scores : List (String × TeamScore)
deriving Repr, DecidableEq

/-- The `matchData` block of an assembled puzzle. -/
structure MatchData where
  scorecard : Scorecard
  playerPerformances : List (String × PlayerStat)
deriving Repr, DecidableEq

/-- An assembled CricGuess puzzle. -/
structure Puzzle where
  id : Nat
  targetPlayer : String
  puzzleType : String
  puzzleContent : String
  puzzleDescription : String
  matchData : MatchData
  trivia : String
deriving Repr, DecidableEq

/-- Python-dictionary assignment `m[k] = v` on an association list: replace
the value in place if the key is already present, otherwise append the new
binding at the end (Python dicts preserve insertion order). -/
def dictSet (k : String) (v : α) : List (String × α) → List (String × α)
  | [] => [(k, v)]
  | (k', v') :: rest => if k' = k then (k, v) :: rest else (k', v') :: dictSet k v rest

/-- The key sequence of an association list, in order. -/
def keysOf (m : List (String × α)) : List String :=
  m.map Prod.fst

/-- Translation of `create_player_key`:
`re.sub(r'[^a-zA-Z]', '', player_name).upper()` — keep only the ASCII
alphabetic characters (`Char.isAlpha` is exactly `[a-zA-Z]`), then uppercase
each (on ASCII letters Python `str.upper` is `Char.toUpper` pointwise). -/
def create_player_key (player_name : String) : String :=
  ((player_name.data.filter Char.isAlpha).map Char.toUpper).asString

/-- Zero-initialized `PlayerStat` for a roster member, as built in the
initialization loop of `calculate_player_stats`. -/
def initStat (player team : String) : PlayerStat :=
  { full_name := player, team := team, runs_in_match := 0, wickets_in_match := 0,
    balls_faced := 0, balls_bowled := 0, boundaries := { fours := 0, sixes := 0 },
    played_in_match := false }

/-- The roster-initialization loop of `calculate_player_stats`: for every
team in `info['players']`, for every listed player, bind that player's
canonical key to a zero stat. -/
def initStats (players : List (String × List String)) : List (String × PlayerStat) :=
  players.foldl
    (fun acc tp =>
      tp.2.foldl (fun acc player => dictSet (create_player_key player) (initStat player tp.1) acc) acc)
    []

/-- The test `wicket.get('kind') not in ['run out', 'retired hurt']` that
decides whether a wicket event is credited to the bowler. -/
def creditedWicket (w : Wicket) : Bool :=
  w.kind ∉ [some "run out", some "retired hurt"]

/-- One iteration of the wicket loop of `calculate_player_stats`: credit
the wicket unless its kind is "run out" or "retired hurt". -/
def wicketStep (ps : PlayerStat) (w : Wicket) : PlayerStat :=
  if creditedWicket w then { ps with wickets_in_match := ps.wickets_in_match + 1 }
  else ps

/-- The batting-stats update of `calculate_player_stats` for one delivery:
mark participation, add `runs.get('batter', 0)`, bump balls faced, and bump
the matching boundary counter when `runs.get('batter')` is exactly 4
(`elif` exactly 6). -/
def batterUpdate (ps : PlayerStat) (runs : Runs) : PlayerStat :=
  let ps := { ps with played_in_match := true,
                      runs_in_match := ps.runs_in_match + runs.batter.getD 0,
                      balls_faced := ps.balls_faced + 1 }
  if runs.batter = some 4 then
    { ps with boundaries := { ps.boundaries with fours := ps.boundaries.fours + 1 } }
  else if runs.batter = some 6 then
    { ps with boundaries := { ps.boundaries with sixes := ps.boundaries.sixes + 1 } }
  else ps

/-- The bowling-stats update of `calculate_player_stats` for one delivery:
mark participation, bump balls bowled, and run the wicket loop over the
delivery's wicket events. -/
def bowlerUpdate (ps : PlayerStat) (wickets : List Wicket) : PlayerStat :=
  let ps := { ps with played_in_match := true, balls_bowled := ps.balls_bowled + 1 }
  wickets.foldl wicketStep ps

/-- Processing of a single delivery inside the ball-by-ball loop of
`calculate_player_stats`: first the batting-stats update (guarded by the
batter's key being present), then the bowling-stats update (guarded by the
bowler's key being present, looked up in the already-updated map, mirroring
the in-place mutation of the Python dict). -/
def processDelivery (player_stats : List (String × PlayerStat)) (delivery : Delivery) :
    List (String × PlayerStat) :=
  let batter_key := create_player_key delivery.batter
  let bowler_key := create_player_key delivery.bowler
  let player_stats :=
    match List.lookup batter_key player_stats with
    | none => player_stats
    | some ps => dictSet batter_key (batterUpdate ps delivery.runs) player_stats
  match List.lookup bowler_key player_stats with
  | none => player_stats
  | some ps => dictSet bowler_key (bowlerUpdate ps delivery.wickets) player_stats

/-- Translation of `calculate_player_stats`: initialize every roster player
to a zero stat, process every delivery of every over of every innings, and
keep only the players whose `played_in_match` flag was set.  The source's
truthiness guards on empty `overs`/`deliveries` lists are no-ops for the
folds and are omitted. -/
def calculate_player_stats (players : List (String × List String))
    (innings : List Inning) : List (String × PlayerStat) :=
  let player_stats := initStats players
  let player_stats := innings.foldl
    (fun stats inning =>
      inning.overs.foldl
        (fun stats over => over.deliveries.foldl processDelivery stats)
        stats)
    player_stats
  player_stats.filter (fun kv => kv.2.played_in_match)

/-- The per-innings totals loop of `calculate_team_scores`: sum
`runs.get('total', 0)` over every delivery and add `len(wickets)` for every
delivery carrying wicket events (an absent or empty list contributes 0). -/
def inningTotals (inning : Inning) : TeamScore :=
  inning.overs.foldl
    (fun acc over =>
      over.deliveries.foldl
        (fun acc delivery =>
          { runs := acc.runs + delivery.runs.total.getD 0,
            wickets := acc.wickets + delivery.wickets.length })
        acc)
    { runs := 0, wickets := 0 }

/-- Translation of `calculate_team_scores`: one dict assignment
`scores[inning['team']] = {runs, wickets}` per innings, in order — a team
that bats twice is overwritten, not merged. -/
def calculate_team_scores (innings : List Inning) : List (String × TeamScore) :=
  innings.foldl (fun scores inning => dictSet inning.team (inningTotals inning) scores) []

/-- Split a character list on a separator character, keeping empty groups
(the behaviour of splitting a string on a single-character separator). -/
def splitOnChar (sep : Char) : List Char → List (List Char)
  | [] => [[]]
  | c :: cs =>
    if c = sep then [] :: splitOnChar sep cs
    else
      match splitOnChar sep cs with
      | [] => [[c]]
      | g :: gs => (c :: g) :: gs

/-- Decimal value of a nonempty all-digit character list; `none` otherwise. -/
def digitsToNat (cs : List Char) : Option Nat :=
  if cs ≠ [] ∧ cs.all Char.isDigit then
    some (cs.foldl (fun acc c => acc * 10 + (c.toNat - 48)) 0)
  else none

/-- Modelled from Python's `datetime.strptime(date_string, '%Y-%m-%d').year`
(standard library, not repository code): a four-digit year ≥ 1, dash, one-
or two-digit month in 1..12, dash, one- or two-digit day in 1..31; `none`
is the `ValueError` path.  (CPython additionally checks the day against the
month's length; no verified property depends on that refinement.) -/
def parseYearYMD (s : String) : Option Nat :=
  match splitOnChar '-' s.data with
  | [y, m, d] =>
    match digitsToNat y, digitsToNat m, digitsToNat d with
    | some yn, some mn, some dn =>
      if y.length = 4 && 1 ≤ yn && 1 ≤ m.length && m.length ≤ 2 &&
         1 ≤ mn && mn ≤ 12 && 1 ≤ d.length && d.length ≤ 2 && 1 ≤ dn && dn ≤ 31 then
        some yn
      else none
    | _, _, _ => none
  | _ => none

/-- Translation of `extract_season`: parse the date's year and format
`f"{year-1}/{str(year)[-2:]}"` (the last two characters of the year's
decimal string); `none` is the `ValueError` path of `strptime` on a
malformed date. -/
def extract_season (date_string : String) : Option String := do
  let year ← parseYearYMD date_string
  let prev := year - 1
  let ys := (toString year).data
  let lastTwo := (ys.drop (ys.length - 2)).asString
  pure s!"{prev}/{lastTwo}"

/-- Translation of `generate_puzzle_content`.  The two team-score lines are
built in source order: `teams[0]` and `team_scores[teams[0]]` first (a
missing key is a `KeyError`, modelled by `none`), then `teams[1]` and
`team_scores[teams[1]]` (a short teams list is an `IndexError`, modelled by
`none`). -/
def generate_puzzle_content (match_data : MatchData) : Option String := do
  let scorecard := match_data.scorecard
  let teams := scorecard.teams
  let venue := scorecard.venue
  let date := scorecard.date
  let winner := scorecard.winner
  let team_scores := scorecard.team_scores
  let t0 ← teams.get? 0
  let s0 ← List.lookup t0 team_scores
  let r0 := s0.runs
  let w0 := s0.wickets
  let team1_score := s!"{t0}: {r0}/{w0}"
  let t1 ← teams.get? 1
  let s1 ← List.lookup t1 team_scores
  let r1 := s1.runs
  let w1 := s1.wickets
  let team2_score := s!"{t1}: {r1}/{w1}"
  pure (s!"🏏 Match Scorecard 🏏\n{t0} vs {t1}\nVenue: {venue}\nDate: {date}\n\n"
    ++ s!"{team1_score}\n{team2_score}\n\nWinner: {winner}\nPlayer of the Match: ?")

/-- Translation of `generate_trivia`.  The source draws one of four fixed
templates with `random.choice`; all four are total given the year parsed by
`strptime` (the `none` path), so the draw only affects the trivia text,
which no verified property inspects — the first template stands for the
drawn one. -/
def generate_trivia (match_data : MatchData) : Option String := do
  let scorecard := match_data.scorecard
  let venue := scorecard.venue
  let date := scorecard.date
  let year ← parseYearYMD date
  pure s!"This classic ODI was played at {venue} in {year}."

/-- Translation of `convert_to_cricguess_puzzle`.  The outer `try`/`except`
that catches any exception and returns `None` becomes the `Option` result.
The two validation `raise`s collapse into the nonempty-list patterns: the
first rejects a falsy (missing or empty) `player_of_match`, `teams` or
`innings`; the second re-checks that `player_of_match` is a nonempty list. -/
def convert_to_cricguess_puzzle (cricsheet_data : MatchRecord) (puzzle_id : Nat) :
    Option Puzzle :=
  let info := cricsheet_data.info
  match info.player_of_match, info.teams, cricsheet_data.innings with
  | some (pom0 :: _), some (team0 :: teamRest), some (inn0 :: innRest) =>
    let innings := inn0 :: innRest
    let player_performances := calculate_player_stats info.players innings
    let team_scores := calculate_team_scores innings
    let player_of_match := pom0
    let target_player_key := create_player_key player_of_match
    match List.lookup target_player_key player_performances with
    | none => none
    | some _ => do
      let date ← info.dates.get? 0
      let season ← extract_season date
      let scorecard : Scorecard :=
        { teams := team0 :: teamRest,
          venue := info.venue.getD "Unknown Venue",
          date := date,
          season := season,
          winner := info.outcome_winner.getD "No Result",
          player_of_match := player_of_match,
          team_scores := team_scores }
      let match_data : MatchData :=
        { scorecard := scorecard, playerPerformances := player_performances }
      let content ← generate_puzzle_content match_data
      let trivia ← generate_trivia match_data
      pure { id := puzzle_id,
             targetPlayer := target_player_key,
             puzzleType := "scorecard",
             puzzleContent := content,
             puzzleDescription := "Guess the Player of the Match",
             matchData := match_data,
             trivia := trivia }
  | _, _, _ => none

/-- A Python/JSON value, for modelling `is_valid_puzzle`, which receives a
dictionary of unconstrained shape and guards every access with a bare
`except` that turns any exception into `False`. -/
inductive JVal where
  | jnull
  | jbool (b : Bool)
  | jnum (n : Int)
  | jstr (s : String)
  | jarr (elems : List JVal)
  | jobj (fields : List (String × JVal))

mutual
/-- Structural equality of values (Python `==` on the JSON fragment;
Python's dict equality is insertion-order-insensitive, a difference no
verified property exercises). -/
def jeq : JVal → JVal → Bool
  | JVal.jnull, JVal.jnull => true
  | JVal.jbool a, JVal.jbool b => a == b
  | JVal.jnum a, JVal.jnum b => a == b
  | JVal.jstr a, JVal.jstr b => a == b
  | JVal.jarr a, JVal.jarr b => jeqElems a b
  | JVal.jobj a, JVal.jobj b => jeqFields a b
  | _, _ => false

def jeqElems : List JVal → List JVal → Bool
  | [], [] => true
  | x :: xs, y :: ys => jeq x y && jeqElems xs ys
  | _, _ => false

def jeqFields : List (String × JVal) → List (String × JVal) → Bool
  | [], [] => true
  | (k, x) :: xs, (l, y) :: ys => k == l && jeq x y && jeqFields xs ys
  | _, _ => false
end

/-- Python subscripting `v[k]` with a string key: a dictionary yields the
bound value or raises `KeyError`; any other shape raises (`TypeError` or
`IndexError`) — both modelled by `none`. -/
def jget (v : JVal) (k : String) : Option JVal :=
  match v with
  | JVal.jobj fields => List.lookup k fields
  | _ => none

/-- Python `len(v)`: defined for strings, lists and dictionaries, a
`TypeError` (`none`) otherwise. -/
def jlen (v : JVal) : Option Nat :=
  match v with
  | JVal.jstr s => some s.data.length
  | JVal.jarr elems => some elems.length
  | JVal.jobj fields => some fields.length
  | _ => none

/-- Python truthiness of a value (total). -/
def jtruthy (v : JVal) : Bool :=
  match v with
  | JVal.jnull => false
  | JVal.jbool b => b
  | JVal.jnum n => n != 0
  | JVal.jstr s => s != ""
  | JVal.jarr elems => !elems.isEmpty
  | JVal.jobj fields => !fields.isEmpty

/-- Python `x in v`: key membership for a dictionary (a non-hashable `x`,
i.e. a list or dict, raises `TypeError`), element membership for a list,
and a `TypeError` for the remaining shapes used here (the substring case
for two strings does not occur in the validator's data and is not
modelled). -/
def jmem (x : JVal) (v : JVal) : Option Bool :=
  match v with
  | JVal.jobj fields =>
    match x with
    | JVal.jstr s => some (fields.any (fun kv => kv.1 == s))
    | JVal.jnull | JVal.jbool _ | JVal.jnum _ => some false
    | JVal.jarr _ | JVal.jobj _ => none
  | JVal.jarr elems => some (elems.any (fun e => jeq e x))
  | _ => none

/-- The `try` body of `is_valid_puzzle`, with `none` as the exception path.
Each line mirrors the source: `has_valid_target` short-circuits on a falsy
`targetPlayer` before touching `matchData`; `has_scores` short-circuits on
a falsy `team_scores` before taking its length.  The source's `and` chain
returns the last (or first falsy) operand; only its truthiness is observed,
so the result is collapsed to `Bool`. -/
def is_valid_checks (puzzle : JVal) : Option Bool := do
  let target ← jget puzzle "targetPlayer"
  let has_valid_target ←
    if jtruthy target then do
      let md ← jget puzzle "matchData"
      let perf ← jget md "playerPerformances"
      jmem target perf
    else pure false
  let md ← jget puzzle "matchData"
  let sc ← jget md "scorecard"
  let teams ← jget sc "teams"
  let teamsLen ← jlen teams
  let has_valid_teams := teamsLen == 2
  let perf ← jget md "playerPerformances"
  let perfLen ← jlen perf
  let has_enough_players := decide (8 ≤ perfLen)
  let team_scores ← jget sc "team_scores"
  let has_scores ←
    if jtruthy team_scores then do
      let scoresLen ← jlen team_scores
      pure (scoresLen == 2)
    else pure false
  pure (has_valid_target && has_valid_teams && has_enough_players && has_scores)

/-- Translation of `is_valid_puzzle`: the checks, with any exception turned
into `False` by the bare `except`. -/
def is_valid_puzzle (puzzle : JVal) : Bool :=
  (is_valid_checks puzzle).getD false

/-- The JSON shape of an assembled puzzle, as read by `is_valid_puzzle`:
`targetPlayer`, `matchData.playerPerformances`, `matchData.scorecard.teams`
and `matchData.scorecard.team_scores` (the fields the validator never reads
are irrelevant to it and omitted). -/
def mkPuzzleJ (target : String) (teams : List JVal)
    (perf fields_scores : List (String × JVal)) : JVal :=
  JVal.jobj
    [("targetPlayer", JVal.jstr target),
     ("matchData", JVal.jobj
        [("scorecard", JVal.jobj
            [("teams", JVal.jarr teams),
             ("team_scores", JVal.jobj fields_scores)]),
         ("playerPerformances", JVal.jobj perf)])]

/-- The last innings of the given team in the list, if any. -/
def lastOcc (t : String) : List Inning → Option Inning
  | [] => none
  | i :: rest =>
    match lastOcc t rest with
    | some j => some j
    | none => if i.team = t then some i else none

/-- Concrete innings: team "A" scores 1 run, no wickets. -/
def cexInnA1 : Inning :=
  { team := "A",
    overs := [{ deliveries := [{ batter := "x", bowler := "y", runs := { total := some 1 } }] }] }

/-- Concrete innings: team "A" bats again and scores 2 runs, no wickets. -/
def cexInnA2 : Inning :=
  { team := "A",
    overs := [{ deliveries := [{ batter := "x", bowler := "y", runs := { total := some 2 } }] }] }

/-- Concrete match with a THREE-element teams list whose first two teams
both bat; everything else is well-formed. -/
def cexMatch3 : MatchRecord :=
  { info := { players := [("A", ["John Smith"]), ("B", ["Bob Lee"])],
              player_of_match := some ["John Smith"],
              teams := some ["A", "B", "C"],
              dates := ["2005-01-15"] },
    innings :=
      some [{ team := "A",
              overs := [{ deliveries :=
                [{ batter := "John Smith", bowler := "Bob Lee",
                   runs := { batter := some 4, total := some 4 } }] }] },
            { team := "B",
              overs := [{ deliveries :=
                [{ batter := "Bob Lee", bowler := "John Smith",
                   runs := { batter := some 1, total := some 1 },
                   wickets := [⟨some "bowled"⟩] }] }] }] }

theorem create_player_key_data (s : String) :
    (create_player_key s).data = (s.data.filter Char.isAlpha).map Char.toUpper := rfl

/-- A character in the lowercase ASCII range, bridged from the `UInt32`
comparisons inside `Char.isLower` to `Nat` bounds on `Char.toNat`. -/
theorem isLower_toNat {c : Char} (h : c.isLower = true) :
    97 ≤ c.toNat ∧ c.toNat ≤ 122 := by
  simp only [Char.isLower, ge_iff_le, Bool.and_eq_true, decide_eq_true_eq] at h
  obtain ⟨h1, h2⟩ := h
  rw [UInt32.le_def, BitVec.le_def] at h1 h2
  exact ⟨h1, h2⟩

/-- A character in the uppercase ASCII range, bridged likewise. -/
theorem isUpper_toNat {c : Char} (h : c.isUpper = true) :
    65 ≤ c.toNat ∧ c.toNat ≤ 90 := by
  simp only [Char.isUpper, ge_iff_le, Bool.and_eq_true, decide_eq_true_eq] at h
  obtain ⟨h1, h2⟩ := h
  rw [UInt32.le_def, BitVec.le_def] at h1 h2
  exact ⟨h1, h2⟩

/-- Uppercasing a lowercase-range code point lands on an ASCII uppercase
letter that is a fixed point of `Char.toUpper`. -/
theorem ofNat_sub32_facts {n : Nat} (h1 : 97 ≤ n) (h2 : n ≤ 122) :
    (Char.ofNat (n - 32)).isUpper = true ∧
    (Char.ofNat (n - 32)).isAlpha = true ∧
    Char.toUpper (Char.ofNat (n - 32)) = Char.ofNat (n - 32) := by
  interval_cases n <;> exact ⟨rfl, rfl, rfl⟩

/-- Key character fact: uppercasing an ASCII letter yields an ASCII uppercase
letter that further uppercasing leaves unchanged. -/
theorem toUpper_alpha_facts {c : Char} (h : c.isAlpha = true) :
    c.toUpper.isUpper = true ∧ c.toUpper.isAlpha = true ∧
    c.toUpper.toUpper = c.toUpper := by
  by_cases hl : 97 ≤ c.toNat ∧ c.toNat ≤ 122
  · have hc : c.toUpper = Char.ofNat (c.toNat - 32) := by
      simp [Char.toUpper, hl]
    obtain ⟨f1, f2, f3⟩ := ofNat_sub32_facts hl.1 hl.2
    exact ⟨hc ▸ f1, hc ▸ f2, by rw [hc]; exact f3⟩
  · have hc : c.toUpper = c := by
      simp only [Char.toUpper]
      rw [if_neg hl]
    have hu : c.isUpper = true := by
      simp only [Char.isAlpha, Bool.or_eq_true] at h
      rcases h with h | h
      · exact h
      · exact absurd (isLower_toNat h) hl
    refine ⟨by rw [hc]; exact hu, ?_, by rw [hc, hc]⟩
    rw [hc]
    simp [Char.isAlpha, hu]

theorem lookup_dictSet_self (k : String) (v : α) (m : List (String × α)) :
    List.lookup k (dictSet k v m) = some v := by
  induction m with
  | nil => simp [dictSet, List.lookup]
  | cons hd tl ih =>
    obtain ⟨k', v'⟩ := hd
    by_cases h : k' = k
    · subst h
      simp [dictSet, List.lookup]
    · simp only [dictSet, if_neg h, List.lookup]
      have : (k == k') = false := by
        simp [beq_iff_eq]
        exact fun hk => h hk.symm
      rw [this]
      exact ih

theorem lookup_dictSet_ne {k k' : String} (h : k' ≠ k) (v : α) (m : List (String × α)) :
    List.lookup k' (dictSet k v m) = List.lookup k' m := by
  induction m with
  | nil =>
    simp only [dictSet, List.lookup]
    have : (k' == k) = false := by simp [beq_iff_eq, h]
    rw [this]
  | cons hd tl ih =>
    obtain ⟨k0, v0⟩ := hd
    by_cases hk : k0 = k
    · subst hk
      simp only [dictSet, if_pos rfl, List.lookup]
      have h1 : (k' == k0) = false := by simp [beq_iff_eq, h]
      rw [h1]
    · simp only [dictSet, if_neg hk, List.lookup]
      cases hbe : (k' == k0) with
      | true => rfl
      | false => exact ih

theorem mem_keysOf_dictSet {x k : String} (v : α) (m : List (String × α)) :
    x ∈ keysOf (dictSet k v m) ↔ x = k ∨ x ∈ keysOf m := by
  induction m with
  | nil => simp [dictSet, keysOf]
  | cons hd tl ih =>
    obtain ⟨k0, v0⟩ := hd
    by_cases hk : k0 = k
    · subst hk
      simp [dictSet, keysOf]
    · simp only [dictSet, if_neg hk, keysOf, List.map_cons, List.mem_cons]
      rw [keysOf] at ih
      rw [ih]
      tauto

theorem keysOf_dictSet_of_lookup {k : String} {m : List (String × α)} {w : α}
    (h : List.lookup k m = some w) (v : α) :
    keysOf (dictSet k v m) = keysOf m := by
  induction m with
  | nil => simp [List.lookup] at h
  | cons hd tl ih =>
    obtain ⟨k0, v0⟩ := hd
    by_cases hk : k0 = k
    · subst hk
      simp [dictSet, keysOf]
    · simp only [dictSet, if_neg hk, keysOf, List.map_cons, List.cons.injEq, true_and]
      simp only [List.lookup] at h
      have h1 : (k == k0) = false := by
        simp [beq_iff_eq]
        exact fun hkk => hk hkk.symm
      rw [h1] at h
      exact ih h

theorem nodup_keysOf_dictSet {k : String} (v : α) {m : List (String × α)}
    (h : (keysOf m).Nodup) : (keysOf (dictSet k v m)).Nodup := by
  induction m with
  | nil => simp [dictSet, keysOf]
  | cons hd tl ih =>
    obtain ⟨k0, v0⟩ := hd
    simp only [keysOf, List.map_cons, List.nodup_cons] at h
    by_cases hk : k0 = k
    · subst hk
      simp only [dictSet, if_pos rfl]
      simpa [keysOf, List.nodup_cons] using h
    · simp only [dictSet, if_neg hk, keysOf, List.map_cons, List.nodup_cons]
      refine ⟨?_, ih h.2⟩
      intro hmem
      rw [show (List.map Prod.fst (dictSet k v tl)) = keysOf (dictSet k v tl) from rfl,
          mem_keysOf_dictSet] at hmem
      rcases hmem with hmem | hmem
      · exact hk hmem
      · exact h.1 hmem

theorem lookup_some_mem_keysOf {k : String} {m : List (String × α)} {v : α}
    (h : List.lookup k m = some v) : k ∈ keysOf m := by
  induction m with
  | nil => simp [List.lookup] at h
  | cons hd tl ih =>
    obtain ⟨k0, v0⟩ := hd
    simp only [List.lookup] at h
    cases hbe : (k == k0) with
    | true =>
      have : k = k0 := by simpa [beq_iff_eq] using hbe
      simp [keysOf, this]
    | false =>
      rw [hbe] at h
      simp only [keysOf, List.map_cons, List.mem_cons]
      exact Or.inr (ih h)

theorem lookup_filter_some {m : List (String × α)} {f : String × α → Bool} {k : String} {v : α}
    (h : List.lookup k (m.filter f) = some v) :
    f (k, v) = true ∧ k ∈ keysOf m := by
  induction m with
  | nil => simp [List.lookup] at h
  | cons hd tl ih =>
    obtain ⟨k0, v0⟩ := hd
    simp only [List.filter_cons] at h
    by_cases hf : f (k0, v0) = true
    · rw [if_pos hf] at h
      simp only [List.lookup] at h
      cases hbe : (k == k0) with
      | true =>
        rw [hbe] at h
        have hk : k = k0 := by simpa [beq_iff_eq] using hbe
        subst hk
        obtain rfl : v0 = v := by simpa using h
        exact ⟨hf, by simp [keysOf]⟩
      | false =>
        rw [hbe] at h
        obtain ⟨h1, h2⟩ := ih h
        exact ⟨h1, by simp only [keysOf, List.map_cons, List.mem_cons]; exact Or.inr h2⟩
    · rw [if_neg hf] at h
      obtain ⟨h1, h2⟩ := ih h
      exact ⟨h1, by simp only [keysOf, List.map_cons, List.mem_cons]; exact Or.inr h2⟩

theorem foldl_invariant {f : α → β → α} {P : α → Prop}
    (hf : ∀ s x, P s → P (f s x)) :
    ∀ (l : List β) (s : α), P s → P (l.foldl f s) := by
  intro l
  induction l with
  | nil => intro s hs; exact hs
  | cons x xs ih => intro s hs; exact ih (f s x) (hf s x hs)

theorem foldl_wicketStep (ws : List Wicket) (ps : PlayerStat) :
    ws.foldl wicketStep ps =
      { ps with wickets_in_match :=
          ps.wickets_in_match + (ws.filter creditedWicket).length } := by
  induction ws generalizing ps with
  | nil => simp
  | cons w ws ih =>
    simp only [List.foldl_cons, List.filter_cons]
    by_cases hw : creditedWicket w = true
    · rw [if_pos hw]
      rw [show wicketStep ps w = { ps with wickets_in_match := ps.wickets_in_match + 1 } by
        simp [wicketStep, hw]]
      rw [ih]
      simp [Nat.add_assoc, Nat.add_comm 1]
    · rw [if_neg hw]
      rw [show wicketStep ps w = ps by simp [wicketStep, hw]]
      exact ih ps

theorem batterUpdate_spec (ps : PlayerStat) (runs : Runs) :
    batterUpdate ps runs =
      { ps with played_in_match := true,
                runs_in_match := ps.runs_in_match + runs.batter.getD 0,
                balls_faced := ps.balls_faced + 1,
                boundaries :=
                  { fours := ps.boundaries.fours + (if runs.batter = some 4 then 1 else 0),
                    sixes := ps.boundaries.sixes + (if runs.batter = some 6 then 1 else 0) } } := by
  by_cases h4 : runs.batter = some 4
  · have h6 : ¬ runs.batter = some 6 := by simp [h4]
    simp [batterUpdate, h4, h6]
  · by_cases h6 : runs.batter = some 6
    · simp [batterUpdate, h4, h6]
    · simp [batterUpdate, h4, h6]

theorem bowlerUpdate_spec (ps : PlayerStat) (ws : List Wicket) :
    bowlerUpdate ps ws =
      { ps with played_in_match := true,
                balls_bowled := ps.balls_bowled + 1,
                wickets_in_match :=
                  ps.wickets_in_match + (ws.filter creditedWicket).length } := by
  rw [bowlerUpdate, foldl_wicketStep]

theorem lastOcc_eq_none_iff (t : String) (l : List Inning) :
    lastOcc t l = none ↔ ∀ i ∈ l, i.team ≠ t := by
  induction l with
  | nil => simp [lastOcc]
  | cons i rest ih =>
    simp only [lastOcc]
    cases hr : lastOcc t rest with
    | some j =>
      simp only [List.mem_cons]
      constructor
      · intro h; cases h
      · intro h
        have hnone : lastOcc t rest = none := ih.mpr (fun x hx => h x (Or.inr hx))
        rw [hnone] at hr
        cases hr
    | none =>
      rw [ih] at hr
      by_cases hi : i.team = t
      · simp [hi]
      · simp only [if_neg hi, List.mem_cons]
        constructor
        · rintro - x (rfl | hx)
          · exact hi
          · exact hr x hx
        · intro h; trivial

theorem lookup_foldl_teamScores (l : List Inning) (acc : List (String × TeamScore)) (t : String) :
    List.lookup t (l.foldl (fun scores inning => dictSet inning.team (inningTotals inning) scores) acc) =
      match lastOcc t l with
      | some i => some (inningTotals i)
      | none => List.lookup t acc := by
  induction l generalizing acc with
  | nil => simp [lastOcc]
  | cons i rest ih =>
    simp only [List.foldl_cons, lastOcc]
    rw [ih]
    cases hr : lastOcc t rest with
    | some j => rfl
    | none =>
      by_cases hi : i.team = t
      · subst hi
        simp [lookup_dictSet_self]
      · rw [if_neg hi]
        exact lookup_dictSet_ne (fun h => hi h.symm) _ _

theorem lookup_calculate_team_scores (innings : List Inning) (t : String) :
    List.lookup t (calculate_team_scores innings) =
      (lastOcc t innings).map inningTotals := by
  rw [calculate_team_scores, lookup_foldl_teamScores]
  cases lastOcc t innings <;> simp [List.lookup]

theorem deliveries_fold_totals (ds : List Delivery) (acc : TeamScore) :
    ds.foldl
        (fun acc delivery =>
          { runs := acc.runs + delivery.runs.total.getD 0,
            wickets := acc.wickets + delivery.wickets.length })
        acc =
      { runs := acc.runs + (ds.map (fun d => d.runs.total.getD 0)).sum,
        wickets := acc.wickets + (ds.map (fun d => d.wickets.length)).sum } := by
  induction ds generalizing acc with
  | nil => simp
  | cons d ds ih =>
    simp only [List.foldl_cons, List.map_cons, List.sum_cons]
    rw [ih]
    simp [Nat.add_assoc]

theorem overs_fold_totals (os : List Over) (acc : TeamScore) :
    os.foldl
        (fun acc over =>
          over.deliveries.foldl
            (fun acc delivery =>
              { runs := acc.runs + delivery.runs.total.getD 0,
                wickets := acc.wickets + delivery.wickets.length })
            acc)
        acc =
      { runs := acc.runs +
          (((os.map Over.deliveries).flatten).map (fun d => d.runs.total.getD 0)).sum,
        wickets := acc.wickets +
          (((os.map Over.deliveries).flatten).map (fun d => d.wickets.length)).sum } := by
  induction os generalizing acc with
  | nil => simp
  | cons o os ih =>
    simp only [List.foldl_cons, List.map_cons, List.flatten_cons, List.map_append,
      List.sum_append]
    rw [deliveries_fold_totals, ih]
    simp [Nat.add_assoc]

theorem inningTotals_spec (inning : Inning) :
    inningTotals inning =
      { runs := (((inning.overs.map Over.deliveries).flatten).map
          (fun d => d.runs.total.getD 0)).sum,
        wickets := (((inning.overs.map Over.deliveries).flatten).map
          (fun d => d.wickets.length)).sum } := by
  rw [inningTotals, overs_fold_totals]
  simp

theorem lastOcc_append (t : String) (l1 l2 : List Inning) :
    lastOcc t (l1 ++ l2) =
      match lastOcc t l2 with
      | some j => some j
      | none => lastOcc t l1 := by
  induction l1 with
  | nil =>
    simp only [List.nil_append]
    cases lastOcc t l2 <;> simp [lastOcc]
  | cons i l1 ih =>
    simp only [List.cons_append, lastOcc]
    have ih' : lastOcc t (l1.append l2) =
        match lastOcc t l2 with
        | some j => some j
        | none => lastOcc t l1 := ih
    rw [ih']
    cases lastOcc t l2 <;> rfl

theorem lastOcc_last_of_decomp {t : String} {pre post : List Inning} {ilast : Inning}
    (hteam : ilast.team = t) (hpost : ∀ j ∈ post, j.team ≠ t) :
    lastOcc t (pre ++ ilast :: post) = some ilast := by
  rw [lastOcc_append]
  have hpostnone : lastOcc t post = none := (lastOcc_eq_none_iff t post).mpr hpost
  simp only [lastOcc, hpostnone, if_pos hteam]

theorem nodup_keysOf_calculate_team_scores (innings : List Inning) :
    (keysOf (calculate_team_scores innings)).Nodup := by
  rw [calculate_team_scores]
  exact foldl_invariant (P := fun m => (keysOf m).Nodup)
    (fun s i hs => nodup_keysOf_dictSet _ hs) innings [] (by simp [keysOf])

theorem mem_keysOf_initTeamFold (pls : List String) (t x : String)
    (acc : List (String × PlayerStat)) :
    (x ∈ keysOf (pls.foldl
        (fun acc player => dictSet (create_player_key player) (initStat player t) acc) acc)) ↔
      x ∈ keysOf acc ∨ ∃ p ∈ pls, x = create_player_key p := by
  induction pls generalizing acc with
  | nil => simp
  | cons p pls ih =>
    simp only [List.foldl_cons]
    rw [ih]
    rw [mem_keysOf_dictSet]
    simp only [List.mem_cons]
    constructor
    · rintro ((rfl | hacc) | hex)
      · exact Or.inr ⟨p, Or.inl rfl, rfl⟩
      · exact Or.inl hacc
      · obtain ⟨q, hq, rfl⟩ := hex
        exact Or.inr ⟨q, Or.inr hq, rfl⟩
    · rintro (hacc | ⟨q, (rfl | hq), rfl⟩)
      · exact Or.inl (Or.inr hacc)
      · exact Or.inl (Or.inl rfl)
      · exact Or.inr ⟨q, hq, rfl⟩

theorem mem_keysOf_initStats (players : List (String × List String)) (x : String) :
    x ∈ keysOf (initStats players) ↔
      ∃ tp ∈ players, ∃ p ∈ tp.2, x = create_player_key p := by
  rw [initStats]
  have main : ∀ (ps : List (String × List String)) (acc : List (String × PlayerStat)),
      (x ∈ keysOf (ps.foldl
          (fun acc tp =>
            tp.2.foldl
              (fun acc player => dictSet (create_player_key player) (initStat player tp.1) acc)
              acc)
          acc)) ↔
        x ∈ keysOf acc ∨ ∃ tp ∈ ps, ∃ p ∈ tp.2, x = create_player_key p := by
    intro ps
    induction ps with
    | nil => simp
    | cons tp ps ih =>
      intro acc
      simp only [List.foldl_cons]
      rw [ih, mem_keysOf_initTeamFold]
      simp only [List.mem_cons]
      constructor
      · rintro ((hacc | ⟨p, hp, rfl⟩) | ⟨tq, hq, p, hp, rfl⟩)
        · exact Or.inl hacc
        · exact Or.inr ⟨tp, Or.inl rfl, p, hp, rfl⟩
        · exact Or.inr ⟨tq, Or.inr hq, p, hp, rfl⟩
      · rintro (hacc | ⟨tq, (rfl | hq), p, hp, rfl⟩)
        · exact Or.inl (Or.inl hacc)
        · exact Or.inl (Or.inr ⟨p, hp, rfl⟩)
        · exact Or.inr ⟨tq, hq, p, hp, rfl⟩
  rw [main]
  simp [keysOf]

theorem keysOf_processDelivery (s : List (String × PlayerStat)) (d : Delivery) :
    keysOf (processDelivery s d) = keysOf s := by
  rw [processDelivery]
  cases hb : List.lookup (create_player_key d.batter) s with
  | none =>
    simp only [hb]
    cases hw : List.lookup (create_player_key d.bowler) s with
    | none => simp [hw]
    | some ps => simp only [hw]; exact keysOf_dictSet_of_lookup hw _
  | some ps =>
    simp only [hb]
    have hkeys : keysOf (dictSet (create_player_key d.batter) (batterUpdate ps d.runs) s) =
        keysOf s := keysOf_dictSet_of_lookup hb _
    cases hw : List.lookup (create_player_key d.bowler)
        (dictSet (create_player_key d.batter) (batterUpdate ps d.runs) s) with
    | none => simp only [hw]; exact hkeys
    | some ps2 =>
      simp only [hw]
      rw [keysOf_dictSet_of_lookup hw _]
      exact hkeys

theorem keysOf_stats_fold (innings : List Inning) (s : List (String × PlayerStat)) :
    keysOf (innings.foldl
        (fun stats inning =>
          inning.overs.foldl
            (fun stats over => over.deliveries.foldl processDelivery stats)
            stats)
        s) = keysOf s := by
  refine foldl_invariant (P := fun m => keysOf m = keysOf s) ?_ innings s rfl
  intro st inning hst
  refine foldl_invariant (P := fun m => keysOf m = keysOf s) ?_ inning.overs st hst
  intro st2 over hst2
  refine foldl_invariant (P := fun m => keysOf m = keysOf s) ?_ over.deliveries st2 hst2
  intro st3 dl hst3
  rw [keysOf_processDelivery, hst3]

theorem creditedWicket_eq (w : Wicket) :
    creditedWicket w =
      decide (w.kind ≠ some "run out" ∧ w.kind ≠ some "retired hurt") := by
  rw [creditedWicket]
  rcases w with ⟨k⟩
  simp [List.mem_cons]

theorem batterUpdate_wickets (ps : PlayerStat) (r : Runs) :
    (batterUpdate ps r).wickets_in_match = ps.wickets_in_match := by
  rw [batterUpdate_spec]

theorem bowlerUpdate_fields (ps : PlayerStat) (ws : List Wicket) :
    (bowlerUpdate ps ws).played_in_match = true ∧
    (bowlerUpdate ps ws).runs_in_match = ps.runs_in_match ∧
    (bowlerUpdate ps ws).balls_faced = ps.balls_faced ∧
    (bowlerUpdate ps ws).boundaries = ps.boundaries ∧
    (bowlerUpdate ps ws).wickets_in_match =
      ps.wickets_in_match + (ws.filter creditedWicket).length := by
  rw [bowlerUpdate_spec]
  exact ⟨rfl, rfl, rfl, rfl, rfl⟩

/-- Looking up the bowler's key after one delivery is processed: it is bound,
and its wicket count grew by exactly the number of credited wicket events. -/
theorem processDelivery_bowler_wickets (stats : List (String × PlayerStat)) (d : Delivery)
    (ps : PlayerStat) (h : List.lookup (create_player_key d.bowler) stats = some ps) :
    ∃ ps', List.lookup (create_player_key d.bowler) (processDelivery stats d) = some ps' ∧
      ps'.wickets_in_match =
        ps.wickets_in_match + (d.wickets.filter creditedWicket).length := by
  rw [processDelivery]
  have step1 : ∃ q, List.lookup (create_player_key d.bowler)
      (match List.lookup (create_player_key d.batter) stats with
       | none => stats
       | some ps0 => dictSet (create_player_key d.batter) (batterUpdate ps0 d.runs) stats) =
        some q ∧
      q.wickets_in_match = ps.wickets_in_match := by
    cases hb : List.lookup (create_player_key d.batter) stats with
    | none => exact ⟨ps, h, rfl⟩
    | some psb =>
      by_cases heq : create_player_key d.bowler = create_player_key d.batter
      · rw [heq] at h
        rw [hb] at h
        obtain rfl : psb = ps := Option.some_inj.mp h
        refine ⟨batterUpdate psb d.runs, ?_, batterUpdate_wickets _ _⟩
        rw [heq]
        exact lookup_dictSet_self _ _ _
      · exact ⟨ps, by rw [lookup_dictSet_ne heq]; exact h, rfl⟩
  obtain ⟨q, hq, hqw⟩ := step1
  rw [hq]
  refine ⟨bowlerUpdate q d.wickets, lookup_dictSet_self _ _ _, ?_⟩
  rw [(bowlerUpdate_fields q d.wickets).2.2.2.2, hqw]

/-- Looking up the batter's key after one delivery is processed: it is bound,
participation is set, runs/balls/boundary counters advanced as specified. -/
theorem processDelivery_batter_stats (stats : List (String × PlayerStat)) (d : Delivery)
    (ps : PlayerStat) (h : List.lookup (create_player_key d.batter) stats = some ps) :
    ∃ ps', List.lookup (create_player_key d.batter) (processDelivery stats d) = some ps' ∧
      ps'.played_in_match = true ∧
      ps'.runs_in_match = ps.runs_in_match + d.runs.batter.getD 0 ∧
      ps'.balls_faced = ps.balls_faced + 1 ∧
      ps'.boundaries.fours =
        ps.boundaries.fours + (if d.runs.batter = some 4 then 1 else 0) ∧
      ps'.boundaries.sixes =
        ps.boundaries.sixes + (if d.runs.batter = some 6 then 1 else 0) := by
  rw [processDelivery]
  rw [h]
  have hlq : List.lookup (create_player_key d.batter)
      (dictSet (create_player_key d.batter) (batterUpdate ps d.runs) stats) =
        some (batterUpdate ps d.runs) := lookup_dictSet_self _ _ _
  have hqfields : (batterUpdate ps d.runs).played_in_match = true ∧
      (batterUpdate ps d.runs).runs_in_match = ps.runs_in_match + d.runs.batter.getD 0 ∧
      (batterUpdate ps d.runs).balls_faced = ps.balls_faced + 1 ∧
      (batterUpdate ps d.runs).boundaries.fours =
        ps.boundaries.fours + (if d.runs.batter = some 4 then 1 else 0) ∧
      (batterUpdate ps d.runs).boundaries.sixes =
        ps.boundaries.sixes + (if d.runs.batter = some 6 then 1 else 0) := by
    rw [batterUpdate_spec]
    exact ⟨rfl, rfl, rfl, rfl, rfl⟩
  cases hw : List.lookup (create_player_key d.bowler)
      (dictSet (create_player_key d.batter) (batterUpdate ps d.runs) stats) with
  | none => exact ⟨batterUpdate ps d.runs, hlq, hqfields.1, hqfields.2.1, hqfields.2.2.1,
      hqfields.2.2.2.1, hqfields.2.2.2.2⟩
  | some p2 =>
    by_cases heq : create_player_key d.batter = create_player_key d.bowler
    · rw [← heq] at hw
      rw [hlq] at hw
      obtain rfl : p2 = batterUpdate ps d.runs := (Option.some_inj.mp hw).symm
      refine ⟨bowlerUpdate (batterUpdate ps d.runs) d.wickets, ?_, ?_⟩
      · rw [heq]
        exact lookup_dictSet_self _ _ _
      · obtain ⟨b1, b2, b3, b4, -⟩ := bowlerUpdate_fields (batterUpdate ps d.runs) d.wickets
        exact ⟨b1, by rw [b2]; exact hqfields.2.1, by rw [b3]; exact hqfields.2.2.1,
          by rw [b4]; exact hqfields.2.2.2.1, by rw [b4]; exact hqfields.2.2.2.2⟩
    · refine ⟨batterUpdate ps d.runs, ?_, hqfields.1, hqfields.2.1, hqfields.2.2.1,
        hqfields.2.2.2.1, hqfields.2.2.2.2⟩
      rw [lookup_dictSet_ne heq]
      exact hlq

theorem generate_puzzle_content_none (md : MatchData)
    (h : (∀ t0, md.scorecard.teams.get? 0 = some t0 →
            List.lookup t0 md.scorecard.team_scores = none) ∨
         md.scorecard.teams.get? 1 = none ∨
         (∀ t1, md.scorecard.teams.get? 1 = some t1 →
            List.lookup t1 md.scorecard.team_scores = none)) :
    generate_puzzle_content md = none := by
  rw [generate_puzzle_content]
  cases h0 : md.scorecard.teams.get? 0 with
  | none => simp
  | some t0 =>
    simp only [Option.bind_eq_bind, Option.some_bind]
    cases hs0 : List.lookup t0 md.scorecard.team_scores with
    | none => simp
    | some s0 =>
      simp only [Option.some_bind]
      have h' : md.scorecard.teams.get? 1 = none ∨
          (∀ t1, md.scorecard.teams.get? 1 = some t1 →
            List.lookup t1 md.scorecard.team_scores = none) := by
        rcases h with h | h | h
        · exact absurd (h t0 h0) (by simp [hs0])
        · exact Or.inl h
        · exact Or.inr h
      cases h1 : md.scorecard.teams.get? 1 with
      | none => simp
      | some t1 =>
        simp only [Option.some_bind]
        rcases h' with h' | h'
        · rw [h1] at h'; cases h'
        · rw [h' t1 h1]
          simp

/--
Claim C2: for every delivery whose bowler's canonical key is bound in the
running stats map, the per-delivery step of `calculate_player_stats` leaves
the bowler's `wickets_in_match` unchanged by "run out" and "retired hurt"
wicket events and increments it by exactly one for each wicket event of any
other kind on that delivery — i.e. the count grows by exactly the number of
wicket events whose kind is neither "run out" nor "retired hurt".
-/
theorem claim_C2 (stats : List (String × PlayerStat)) (d : Delivery) (ps : PlayerStat)
    (h : List.lookup (create_player_key d.bowler) stats = some ps) :
    ∃ ps', List.lookup (create_player_key d.bowler) (processDelivery stats d) = some ps' ∧
      ps'.wickets_in_match = ps.wickets_in_match +
        (d.wickets.filter
          (fun w => decide (w.kind ≠ some "run out" ∧ w.kind ≠ some "retired hurt"))).length := by
  obtain ⟨ps', h1, h2⟩ := processDelivery_bowler_wickets stats d ps h
  refine ⟨ps', h1, ?_⟩
  rw [h2]
  congr 2
  exact List.filter_congr (fun w _ => creditedWicket_eq w)

/-- Witness for C2 at a concrete delivery carrying one "bowled", one
"run out" and one "retired hurt" wicket: exactly one wicket is credited. -/
theorem claim_C2_witness :
    ∃ ps', List.lookup (create_player_key "Bob")
        (processDelivery [("BOB", initStat "Bob" "A")]
          { batter := "Ann", bowler := "Bob",
            wickets := [⟨some "bowled"⟩, ⟨some "run out"⟩, ⟨some "retired hurt"⟩] }) = some ps' ∧
      ps'.wickets_in_match = (initStat "Bob" "A").wickets_in_match +
        (([⟨some "bowled"⟩, ⟨some "run out"⟩, ⟨some "retired hurt"⟩] : List Wicket).filter
          (fun w => decide (w.kind ≠ some "run out" ∧ w.kind ≠ some "retired hurt"))).length :=
  claim_C2 [("BOB", initStat "Bob" "A")]
    { batter := "Ann", bowler := "Bob",
      wickets := [⟨some "bowled"⟩, ⟨some "run out"⟩, ⟨some "retired hurt"⟩] }
    (initStat "Bob" "A") (by decide)

/--
Claim C7: for every delivery whose batter's canonical key is bound in the
running stats map, the per-delivery step of `calculate_player_stats` marks
the batter as having played, adds the delivery's batter-runs value to their
runs, increments balls faced by one, increments fours exactly when batter
runs equal 4 and sixes exactly when they equal 6 — never both.
-/
theorem claim_C7 (stats : List (String × PlayerStat)) (d : Delivery) (ps : PlayerStat)
    (h : List.lookup (create_player_key d.batter) stats = some ps) :
    ∃ ps', List.lookup (create_player_key d.batter) (processDelivery stats d) = some ps' ∧
      ps'.played_in_match = true ∧
      ps'.runs_in_match = ps.runs_in_match + d.runs.batter.getD 0 ∧
      ps'.balls_faced = ps.balls_faced + 1 ∧
      ps'.boundaries.fours =
        ps.boundaries.fours + (if d.runs.batter = some 4 then 1 else 0) ∧
      ps'.boundaries.sixes =
        ps.boundaries.sixes + (if d.runs.batter = some 6 then 1 else 0) ∧
      (ps'.boundaries.fours = ps.boundaries.fours ∨
        ps'.boundaries.sixes = ps.boundaries.sixes) := by
  obtain ⟨ps', h1, h2, h3, h4, h5, h6⟩ := processDelivery_batter_stats stats d ps h
  refine ⟨ps', h1, h2, h3, h4, h5, h6, ?_⟩
  by_cases h4r : d.runs.batter = some 4
  · right
    rw [h6, if_neg (by simp [h4r])]
    rfl
  · left
    rw [h5, if_neg h4r]
    rfl

/-- Witness for C7 at a concrete boundary delivery (batter runs = 4). -/
theorem claim_C7_witness :
    ∃ ps', List.lookup (create_player_key "Ann")
        (processDelivery [("ANN", initStat "Ann" "A")]
          { batter := "Ann", bowler := "Bob", runs := { batter := some 4, total := some 4 } }) =
          some ps' ∧
      ps'.played_in_match = true ∧
      ps'.runs_in_match = (initStat "Ann" "A").runs_in_match +
        ({ batter := some 4, total := some 4 } : Runs).batter.getD 0 ∧
      ps'.balls_faced = (initStat "Ann" "A").balls_faced + 1 ∧
      ps'.boundaries.fours = (initStat "Ann" "A").boundaries.fours +
        (if ({ batter := some 4, total := some 4 } : Runs).batter = some 4 then 1 else 0) ∧
      ps'.boundaries.sixes = (initStat "Ann" "A").boundaries.sixes +
        (if ({ batter := some 4, total := some 4 } : Runs).batter = some 6 then 1 else 0) ∧
      (ps'.boundaries.fours = (initStat "Ann" "A").boundaries.fours ∨
        ps'.boundaries.sixes = (initStat "Ann" "A").boundaries.sixes) :=
  claim_C7 [("ANN", initStat "Ann" "A")]
    { batter := "Ann", bowler := "Bob", runs := { batter := some 4, total := some 4 } }
    (initStat "Ann" "A") (by decide)

/--
Claim C4 (amended): for every innings that is the last innings in the list
attributed to its team — in particular for every innings whenever no team
bats twice — the team's entry in `calculate_team_scores` has runs equal to
the sum of the deliveries' total-runs fields of that innings and wickets
equal to the count of all wicket events of that innings, regardless of
kind.  (As originally stated, over *every* innings, the claim fails when a
team bats twice: the aggregator overwrites, so the entry reflects only the
last such innings — see the counterexample.)
-/
theorem claim_C4 (innings : List Inning) (i : Inning)
    (h : lastOcc i.team innings = some i) :
    List.lookup i.team (calculate_team_scores innings) =
      some { runs := (((i.overs.map Over.deliveries).flatten).map
               (fun d => d.runs.total.getD 0)).sum,
             wickets := (((i.overs.map Over.deliveries).flatten).map
               (fun d => d.wickets.length)).sum } := by
  rw [lookup_calculate_team_scores, h]
  simp [inningTotals_spec]

/-- Counterexample to C4 as stated: team "A" bats twice; the single map
entry carries the second innings' totals, so it differs from the first
innings' delivery-total sum even though that innings is in the list. -/
theorem claim_C4_counterexample :
    cexInnA1 ∈ [cexInnA1, cexInnA2] ∧ cexInnA1.team = "A" ∧
    List.lookup "A" (calculate_team_scores [cexInnA1, cexInnA2]) ≠
      some { runs := (((cexInnA1.overs.map Over.deliveries).flatten).map
               (fun d => d.runs.total.getD 0)).sum,
             wickets := (((cexInnA1.overs.map Over.deliveries).flatten).map
               (fun d => d.wickets.length)).sum } := by
  refine ⟨by decide, by decide, by decide⟩

/-- Witness for C4 (amended) at a single-innings list. -/
theorem claim_C4_witness :
    List.lookup cexInnA1.team (calculate_team_scores [cexInnA1]) =
      some { runs := (((cexInnA1.overs.map Over.deliveries).flatten).map
               (fun d => d.runs.total.getD 0)).sum,
             wickets := (((cexInnA1.overs.map Over.deliveries).flatten).map
               (fun d => d.wickets.length)).sum } :=
  claim_C4 [cexInnA1] cexInnA1 (by decide)

/--
Claim C5: when a team appears as the batting team of two or more innings,
`calculate_team_scores` holds a single entry for that team, and that entry
carries the totals of the last such innings only — last write wins, keyed
by team name, overwriting rather than merging.
-/
theorem claim_C5 (pre post : List Inning) (ilast : Inning) (t : String)
    (hteam : ilast.team = t) (_hprev : ∃ j ∈ pre, j.team = t)
    (hpost : ∀ j ∈ post, j.team ≠ t) :
    (keysOf (calculate_team_scores (pre ++ ilast :: post))).count t = 1 ∧
    List.lookup t (calculate_team_scores (pre ++ ilast :: post)) =
      some { runs := (((ilast.overs.map Over.deliveries).flatten).map
               (fun d => d.runs.total.getD 0)).sum,
             wickets := (((ilast.overs.map Over.deliveries).flatten).map
               (fun d => d.wickets.length)).sum } := by
  have hlast : lastOcc t (pre ++ ilast :: post) = some ilast :=
    lastOcc_last_of_decomp hteam hpost
  have hlk : List.lookup t (calculate_team_scores (pre ++ ilast :: post)) =
      some (inningTotals ilast) := by
    rw [lookup_calculate_team_scores, hlast]
    rfl
  refine ⟨?_, ?_⟩
  · exact List.count_eq_one_of_mem (nodup_keysOf_calculate_team_scores _)
      (lookup_some_mem_keysOf hlk)
  · rw [hlk]
    simp [inningTotals_spec]

/-- Witness for C5: team "A" bats twice; one entry, with the second
innings' totals. -/
theorem claim_C5_witness :
    (keysOf (calculate_team_scores ([cexInnA1] ++ cexInnA2 :: []))).count "A" = 1 ∧
    List.lookup "A" (calculate_team_scores ([cexInnA1] ++ cexInnA2 :: [])) =
      some { runs := (((cexInnA2.overs.map Over.deliveries).flatten).map
               (fun d => d.runs.total.getD 0)).sum,
             wickets := (((cexInnA2.overs.map Over.deliveries).flatten).map
               (fun d => d.wickets.length)).sum } :=
  claim_C5 [cexInnA1] [] cexInnA2 "A" (by decide) (by decide) (by decide)

/--
Claim C6: every key in the map returned by `calculate_player_stats` has its
`played_in_match` flag true, and every such key is the canonical key of
some roster member recorded during zero-initialization; entries whose flag
remained false are discarded.
-/
theorem claim_C6 (players : List (String × List String)) (innings : List Inning)
    (k : String) (ps : PlayerStat)
    (h : List.lookup k (calculate_player_stats players innings) = some ps) :
    ps.played_in_match = true ∧
      ∃ tp ∈ players, ∃ p ∈ tp.2, k = create_player_key p := by
  rw [calculate_player_stats] at h
  obtain ⟨hf, hk⟩ := lookup_filter_some h
  refine ⟨hf, ?_⟩
  rw [keysOf_stats_fold] at hk
  exact (mem_keysOf_initStats players k).mp hk

/-- Witness for C6 at a one-delivery match: the surviving key "ANN" has
played and derives from the roster. -/
theorem claim_C6_witness :
    ({ full_name := "Ann", team := "A", runs_in_match := 1, wickets_in_match := 0,
       balls_faced := 1, balls_bowled := 0, boundaries := { fours := 0, sixes := 0 },
       played_in_match := true } : PlayerStat).played_in_match = true ∧
      ∃ tp ∈ [("A", ["Ann"])], ∃ p ∈ tp.2, "ANN" = create_player_key p :=
  claim_C6 [("A", ["Ann"])]
    [{ team := "A",
       overs := [{ deliveries :=
        [{ batter := "Ann", bowler := "Bob", runs := { batter := some 1, total := some 1 } }] }] }]
    "ANN" _ (by decide)

theorem lookup_cts_none {t : String} {il : List Inning}
    (h : ∀ i ∈ il, i.team ≠ t) :
    List.lookup t (calculate_team_scores il) = none := by
  rw [lookup_calculate_team_scores, (lastOcc_eq_none_iff t il).mpr h]
  rfl

theorem bind_gpc_none {α : Type} (md : MatchData) (f : String → Option α)
    (h : (∀ t0, md.scorecard.teams.get? 0 = some t0 →
            List.lookup t0 md.scorecard.team_scores = none) ∨
         md.scorecard.teams.get? 1 = none ∨
         (∀ t1, md.scorecard.teams.get? 1 = some t1 →
            List.lookup t1 md.scorecard.team_scores = none)) :
    (generate_puzzle_content md).bind f = none := by
  rw [generate_puzzle_content_none md h]
  rfl

/--
Claim C1 (amended): the conversion fails — returns no puzzle — whenever the
player-of-match list is empty or missing, the innings list is empty or
missing, or the teams list has fewer than two entries (missing, empty, or a
single entry).  (As originally stated — failure whenever the teams list
does not have *exactly two* entries — the claim fails: a teams list with
three entries can still convert successfully, because the code only checks
the teams list for truthiness and the content formatter reads only its
first two entries — see the counterexample.)
-/
theorem claim_C1 (m : MatchRecord) (puzzle_id : Nat)
    (h : m.info.player_of_match.getD [] = [] ∨ m.innings.getD [] = [] ∨
         (m.info.teams.getD []).length < 2) :
    convert_to_cricguess_puzzle m puzzle_id = none := by
  rw [convert_to_cricguess_puzzle]
  cases hpom : m.info.player_of_match with
  | none => rfl
  | some poml =>
    cases poml with
    | nil => rfl
    | cons pom0 pomRest =>
      rw [hpom] at h
      cases hteams : m.info.teams with
      | none => rfl
      | some tl =>
        rw [hteams] at h
        cases tl with
        | nil => rfl
        | cons t0 tRest =>
          cases hinn : m.innings with
          | none => rfl
          | some il =>
            rw [hinn] at h
            cases il with
            | nil => rfl
            | cons i0 iRest =>
              simp only [Option.getD_some] at h
              rcases h with h | h | h
              · cases h
              · cases h
              · have hlen : tRest.length = 0 := by
                  simp only [List.length_cons] at h
                  omega
                obtain rfl : tRest = [] := List.length_eq_zero.mp hlen
                show (match List.lookup (create_player_key pom0)
                    (calculate_player_stats m.info.players (i0 :: iRest)) with
                  | none => none
                  | some _ => (do
                    let date ← m.info.dates.get? 0
                    let season ← extract_season date
                    let scorecard : Scorecard :=
                      { teams := [t0],
                        venue := m.info.venue.getD "Unknown Venue",
                        date := date,
                        season := season,
                        winner := m.info.outcome_winner.getD "No Result",
                        player_of_match := pom0,
                        team_scores := calculate_team_scores (i0 :: iRest) }
                    let match_data : MatchData :=
                      { scorecard := scorecard,
                        playerPerformances :=
                          calculate_player_stats m.info.players (i0 :: iRest) }
                    let content ← generate_puzzle_content match_data
                    let trivia ← generate_trivia match_data
                    pure { id := puzzle_id,
                           targetPlayer := create_player_key pom0,
                           puzzleType := "scorecard",
                           puzzleContent := content,
                           puzzleDescription := "Guess the Player of the Match",
                           matchData := match_data,
                           trivia := trivia }) : Option Puzzle) = none
                cases hlk : List.lookup (create_player_key pom0)
                    (calculate_player_stats m.info.players (i0 :: iRest)) with
                | none => rfl
                | some ps =>
                  simp only
                  cases hdate : m.info.dates.get? 0 with
                  | none => simp
                  | some date =>
                    simp only [Option.bind_eq_bind, Option.some_bind]
                    cases hse : extract_season date with
                    | none => simp
                    | some season =>
                      simp only [Option.some_bind, Option.bind_eq_bind]
                      apply bind_gpc_none
                      exact Or.inr (Or.inl rfl)

/-- Counterexample to C1 as stated: this match's teams list has three
entries — not exactly two — yet the conversion succeeds and produces a
puzzle. -/
theorem claim_C1_counterexample :
    (cexMatch3.info.teams.getD []).length ≠ 2 ∧
    convert_to_cricguess_puzzle cexMatch3 201 ≠ none := by
  exact ⟨by decide, by decide⟩

/-- Witness for C1 (amended) at the empty match record (player-of-match
missing). -/
theorem claim_C1_witness :
    convert_to_cricguess_puzzle {} 1 = none :=
  claim_C1 {} 1 (Or.inl rfl)

/--
Claim C9: for a match passing the structural preconditions (nonempty
player-of-match, nonempty teams, nonempty innings), if the canonical key of
the first player-of-match entry is not a key of the aggregated player-stats
map, the conversion fails and no puzzle is produced.
-/
theorem claim_C9 (m : MatchRecord) (puzzle_id : Nat) (pom0 : String) (pomRest : List String)
    (ts : List String) (il : List Inning)
    (hpom : m.info.player_of_match = some (pom0 :: pomRest))
    (hteams : m.info.teams = some ts) (hts : ts ≠ [])
    (hinn : m.innings = some il) (hil : il ≠ [])
    (htarget : List.lookup (create_player_key pom0)
        (calculate_player_stats m.info.players il) = none) :
    convert_to_cricguess_puzzle m puzzle_id = none := by
  obtain ⟨t0, tRest, rfl⟩ : ∃ a l, ts = a :: l := by
    cases ts with
    | nil => exact absurd rfl hts
    | cons a l => exact ⟨a, l, rfl⟩
  obtain ⟨i0, iRest, rfl⟩ : ∃ a l, il = a :: l := by
    cases il with
    | nil => exact absurd rfl hil
    | cons a l => exact ⟨a, l, rfl⟩
  rw [convert_to_cricguess_puzzle, hpom, hteams, hinn]
  show (match List.lookup (create_player_key pom0)
      (calculate_player_stats m.info.players (i0 :: iRest)) with
    | none => none
    | some _ => (do
      let date ← m.info.dates.get? 0
      let season ← extract_season date
      let scorecard : Scorecard :=
        { teams := t0 :: tRest,
          venue := m.info.venue.getD "Unknown Venue",
          date := date,
          season := season,
          winner := m.info.outcome_winner.getD "No Result",
          player_of_match := pom0,
          team_scores := calculate_team_scores (i0 :: iRest) }
      let match_data : MatchData :=
        { scorecard := scorecard,
          playerPerformances := calculate_player_stats m.info.players (i0 :: iRest) }
      let content ← generate_puzzle_content match_data
      let trivia ← generate_trivia match_data
      pure { id := puzzle_id,
             targetPlayer := create_player_key pom0,
             puzzleType := "scorecard",
             puzzleContent := content,
             puzzleDescription := "Guess the Player of the Match",
             matchData := match_data,
             trivia := trivia }) : Option Puzzle) = none
  rw [htarget]

/-- Witness for C9: the player-of-match "Nobody" has no stats entry (empty
roster), so the otherwise well-formed match converts to no puzzle. -/
theorem claim_C9_witness :
    convert_to_cricguess_puzzle
      { info := { players := [],
                  player_of_match := some ["Nobody"],
                  teams := some ["A", "B"],
                  dates := ["2005-01-15"] },
        innings := some [cexInnA1] } 7 = none :=
  claim_C9 _ 7 "Nobody" [] ["A", "B"] [cexInnA1] rfl rfl (by decide) rfl (by decide)
    (by decide)

/--
Claim C10: the conversion returns either an assembled puzzle or `None` for
every input (no exception escapes — in this model the `Option` result), and
whenever one of the first two names in `info.teams` (here, a two-element
teams list) never appears as any innings' attributed team — so it is absent
from the aggregated team-scores mapping — the content-string formatting
lookup fails and the conversion returns `None` instead of a puzzle.
-/
theorem claim_C10 (m : MatchRecord) (puzzle_id : Nat) (ts : List String) (t : String)
    (hteams : m.info.teams = some ts) (hlen : ts.length = 2) (hmem : t ∈ ts)
    (habsent : ∀ i ∈ m.innings.getD [], i.team ≠ t) :
    convert_to_cricguess_puzzle m puzzle_id = none := by
  obtain ⟨t0, t1, rfl⟩ : ∃ a b, ts = [a, b] := by
    cases ts with
    | nil => simp at hlen
    | cons a l =>
      cases l with
      | nil => simp at hlen
      | cons b l2 =>
        cases l2 with
        | nil => exact ⟨a, b, rfl⟩
        | cons c l3 => simp at hlen
  have hmem' : t = t0 ∨ t = t1 := by simpa using hmem
  rw [convert_to_cricguess_puzzle, hteams]
  cases hpom : m.info.player_of_match with
  | none => rfl
  | some poml =>
    cases poml with
    | nil => rfl
    | cons pom0 pomRest =>
      cases hinn : m.innings with
      | none => rfl
      | some il =>
        rw [hinn] at habsent
        simp only [Option.getD_some] at habsent
        cases il with
        | nil => rfl
        | cons i0 iRest =>
          have hscores : List.lookup t (calculate_team_scores (i0 :: iRest)) = none :=
            lookup_cts_none habsent
          show (match List.lookup (create_player_key pom0)
              (calculate_player_stats m.info.players (i0 :: iRest)) with
            | none => none
            | some _ => (do
              let date ← m.info.dates.get? 0
              let season ← extract_season date
              let scorecard : Scorecard :=
                { teams := [t0, t1],
                  venue := m.info.venue.getD "Unknown Venue",
                  date := date,
                  season := season,
                  winner := m.info.outcome_winner.getD "No Result",
                  player_of_match := pom0,
                  team_scores := calculate_team_scores (i0 :: iRest) }
              let match_data : MatchData :=
                { scorecard := scorecard,
                  playerPerformances := calculate_player_stats m.info.players (i0 :: iRest) }
              let content ← generate_puzzle_content match_data
              let trivia ← generate_trivia match_data
              pure { id := puzzle_id,
                     targetPlayer := create_player_key pom0,
                     puzzleType := "scorecard",
                     puzzleContent := content,
                     puzzleDescription := "Guess the Player of the Match",
                     matchData := match_data,
                     trivia := trivia }) : Option Puzzle) = none
          cases hlk : List.lookup (create_player_key pom0)
              (calculate_player_stats m.info.players (i0 :: iRest)) with
          | none => rfl
          | some ps =>
            simp only
            cases hdate : m.info.dates.get? 0 with
            | none => simp
            | some date =>
              simp only [Option.bind_eq_bind, Option.some_bind]
              cases hse : extract_season date with
              | none => simp
              | some season =>
                simp only [Option.some_bind, Option.bind_eq_bind]
                apply bind_gpc_none
                rcases hmem' with rfl | rfl
                · refine Or.inl (fun x hx => ?_)
                  obtain rfl : t = x := by simpa using hx
                  exact hscores
                · refine Or.inr (Or.inr (fun x hx => ?_))
                  obtain rfl : t = x := by simpa using hx
                  exact hscores

/-- Witness for C10: team "C" is listed in `info.teams` but never bats, so
the conversion yields no puzzle. -/
theorem claim_C10_witness :
    convert_to_cricguess_puzzle
      { info := { players := [("A", ["Ann"])],
                  player_of_match := some ["Ann"],
                  teams := some ["A", "C"],
                  dates := ["2005-01-15"] },
        innings := some [cexInnA1] } 9 = none :=
  claim_C10 _ 9 ["A", "C"] "C" rfl rfl (by decide) (by decide)

/--
Claim C8: `create_player_key` returns exactly the alphabetic characters of
its input, uppercased — every surviving character is an uppercase ASCII
letter, so no whitespace, punctuation or digit survives; it is total by
construction (returning the empty key when no character is alphabetic) and
idempotent.
-/
theorem claim_C8 (s : String) :
    (create_player_key s).data = (s.data.filter Char.isAlpha).map Char.toUpper ∧
    (∀ c ∈ (create_player_key s).data, c.isUpper = true) ∧
    create_player_key (create_player_key s) = create_player_key s ∧
    ((∀ c ∈ s.data, c.isAlpha = false) → create_player_key s = "") := by
  refine ⟨rfl, ?_, ?_, ?_⟩
  · intro c hc
    rw [create_player_key_data] at hc
    obtain ⟨c0, hc0, rfl⟩ := List.mem_map.mp hc
    exact (toUpper_alpha_facts (List.mem_filter.mp hc0).2).1
  · have hfix : (create_player_key s).data.filter Char.isAlpha = (create_player_key s).data :=
      List.filter_eq_self.mpr (fun c hc => by
        rw [create_player_key_data] at hc
        obtain ⟨c0, hc0, rfl⟩ := List.mem_map.mp hc
        exact (toUpper_alpha_facts (List.mem_filter.mp hc0).2).2.1)
    have hlist : ((create_player_key s).data.filter Char.isAlpha).map Char.toUpper =
        (create_player_key s).data := by
      rw [hfix, create_player_key_data, List.map_map]
      exact List.map_congr_left (fun c hc => by
        have := (toUpper_alpha_facts (List.mem_filter.mp hc).2).2.2
        simpa [Function.comp] using this)
    calc create_player_key (create_player_key s)
        = (((create_player_key s).data.filter Char.isAlpha).map Char.toUpper).asString := rfl
      _ = ((create_player_key s).data).asString := congrArg List.asString hlist
      _ = create_player_key s := rfl
  · intro h
    have hnil : s.data.filter Char.isAlpha = [] :=
      List.filter_eq_nil_iff.mpr (fun c hc => by rw [h c hc]; simp)
    show ((s.data.filter Char.isAlpha).map Char.toUpper).asString = ""
    rw [hnil]
    rfl

/-- Witness for C8's no-alphabetic-character clause at a concrete string of
digits and punctuation. -/
theorem claim_C8_witness : create_player_key "12!* " = "" :=
  (claim_C8 "12!* ").2.2.2 (by decide)

/--
Claim C3: `is_valid_puzzle` returns true iff all four conditions hold — the
target player key is non-empty and present as a key in
`playerPerformances`, the scorecard's teams list has exactly two entries,
`playerPerformances` has at least eight entries, and `team_scores` has
exactly two entries; and whenever evaluating the checks raises an exception
(missing nested field, wrong shape — the `none` result of
`is_valid_checks`), the function returns false instead of propagating.
-/
theorem claim_C3 :
    (∀ j : JVal, is_valid_checks j = none → is_valid_puzzle j = false) ∧
    (∀ (target : String) (teams : List JVal) (perf fields_scores : List (String × JVal)),
      (keysOf perf).Nodup → (keysOf fields_scores).Nodup →
      (is_valid_puzzle (mkPuzzleJ target teams perf fields_scores) = true ↔
        (target ≠ "" ∧ target ∈ keysOf perf ∧ teams.length = 2 ∧
          8 ≤ perf.length ∧ fields_scores.length = 2))) := by
  constructor
  · intro j h
    rw [is_valid_puzzle, h]
    rfl
  · intro target teams perf scores hnp hns
    have g1 : jget (mkPuzzleJ target teams perf scores) "targetPlayer" =
        some (JVal.jstr target) := rfl
    have g2 : jget (mkPuzzleJ target teams perf scores) "matchData" =
        some (JVal.jobj
          [("scorecard", JVal.jobj
              [("teams", JVal.jarr teams), ("team_scores", JVal.jobj scores)]),
           ("playerPerformances", JVal.jobj perf)]) := rfl
    have g3 : jget (JVal.jobj
          [("scorecard", JVal.jobj
              [("teams", JVal.jarr teams), ("team_scores", JVal.jobj scores)]),
           ("playerPerformances", JVal.jobj perf)]) "playerPerformances" =
        some (JVal.jobj perf) := rfl
    have g4 : jget (JVal.jobj
          [("scorecard", JVal.jobj
              [("teams", JVal.jarr teams), ("team_scores", JVal.jobj scores)]),
           ("playerPerformances", JVal.jobj perf)]) "scorecard" =
        some (JVal.jobj
          [("teams", JVal.jarr teams), ("team_scores", JVal.jobj scores)]) := rfl
    have g5 : jget (JVal.jobj
          [("teams", JVal.jarr teams), ("team_scores", JVal.jobj scores)]) "teams" =
        some (JVal.jarr teams) := rfl
    have g6 : jget (JVal.jobj
          [("teams", JVal.jarr teams), ("team_scores", JVal.jobj scores)]) "team_scores" =
        some (JVal.jobj scores) := rfl
    rw [is_valid_puzzle, is_valid_checks]
    simp only [g1, g2, g3, g4, g5, g6, jtruthy, jlen, jmem, Option.bind_eq_bind,
      Option.some_bind]
    split_ifs with h1 h2 h3
    · -- target truthy, team_scores truthy
      have ht : target ≠ "" := by simpa using h1
      simp only [Option.pure_def, Option.some_bind, Option.getD_some]
      simp only [Bool.and_eq_true, List.any_eq_true, beq_iff_eq, decide_eq_true_eq,
        Nat.beq_eq_true_eq]
      constructor
      · rintro ⟨⟨⟨⟨kv, hkv, rfl⟩, hteams2⟩, hperf8⟩, hscores2⟩
        exact ⟨ht, List.mem_map_of_mem Prod.fst hkv, hteams2, hperf8,
          by simpa using hscores2⟩
      · rintro ⟨-, hmem, hteams2, hperf8, hscores2⟩
        obtain ⟨kv, hkv, hfst⟩ := List.mem_map.mp hmem
        exact ⟨⟨⟨⟨kv, hkv, hfst⟩, hteams2⟩, hperf8⟩, by simpa using hscores2⟩
    · -- target truthy, team_scores falsy (empty dict)
      have hsc : scores = [] := by
        have := h2
        simp only [Bool.not_eq_true', Bool.not_not] at this
        exact List.isEmpty_iff.mp (by simpa using this)
      subst hsc
      simp
    · -- target falsy, team_scores truthy
      have ht : target = "" := by simpa using h1
      subst ht
      simp
    · -- target falsy, team_scores falsy
      have ht : target = "" := by simpa using h1
      subst ht
      simp

/-- Witness for C3: a concrete well-formed puzzle with 8 performers and two
team scores validates, and a shapeless value (an empty object) yields false
rather than an error. -/
theorem claim_C3_witness :
    is_valid_puzzle (JVal.jobj []) = false ∧
    (is_valid_puzzle (mkPuzzleJ "X" [JVal.jstr "A", JVal.jstr "B"]
        [("P1", JVal.jnull), ("P2", JVal.jnull), ("P3", JVal.jnull), ("P4", JVal.jnull),
         ("P5", JVal.jnull), ("P6", JVal.jnull), ("P7", JVal.jnull), ("X", JVal.jnull)]
        [("A", JVal.jnull), ("B", JVal.jnull)]) = true ↔
      ("X" ≠ "" ∧
        "X" ∈ keysOf
          [("P1", JVal.jnull), ("P2", JVal.jnull), ("P3", JVal.jnull), ("P4", JVal.jnull),
           ("P5", JVal.jnull), ("P6", JVal.jnull), ("P7", JVal.jnull), ("X", JVal.jnull)] ∧
        ([JVal.jstr "A", JVal.jstr "B"] : List JVal).length = 2 ∧
        8 ≤ ([("P1", JVal.jnull), ("P2", JVal.jnull), ("P3", JVal.jnull), ("P4", JVal.jnull),
              ("P5", JVal.jnull), ("P6", JVal.jnull), ("P7", JVal.jnull),
              ("X", JVal.jnull)] : List (String × JVal)).length ∧
        ([("A", JVal.jnull), ("B", JVal.jnull)] : List (String × JVal)).length = 2)) :=
  ⟨claim_C3.1 (JVal.jobj []) rfl,
   claim_C3.2 "X" [JVal.jstr "A", JVal.jstr "B"]
     [("P1", JVal.jnull), ("P2", JVal.jnull), ("P3", JVal.jnull), ("P4", JVal.jnull),
      ("P5", JVal.jnull), ("P6", JVal.jnull), ("P7", JVal.jnull), ("X", JVal.jnull)]
     [("A", JVal.jnull), ("B", JVal.jnull)] (by decide) (by decide)⟩
